import Mathlib

/-!
Verification of the event-normalization, routing, and key-rendering pipeline
of `src/main.rs` (an AWS Lambda that copies freshly created S3 objects to a
destination key computed from the source key).

The Rust source is shallowly embedded: pure functions become Lean functions,
the impure inputs of `add_builtin_parameters` (wall clock, environment) become
explicit arguments, and fallible operations return `Option` (`none` models the
`Err`/failure case; the error payloads of the Rust code are never inspected by
it, only propagated).  External collaborators whose sources are not part of
this repository (the serde JSON decoding of the `aws_lambda_events` payload
types, the `routefinder` router, the `regex` matcher and the `liquid` template
engine) are modelled from the specification, and each such definition is
marked `Modelled from the spec:` in its doc comment.
-/

/-! ## Parameter sets (Rust `HashMap<String, String>` by key/value semantics) -/

/-- A parameter set: the `HashMap<String, String>` of the source, represented
as an association list with unique keys.  `insertP` models `HashMap::insert`
(overwrite any existing binding of the key). -/
abbrev Params : Type := List (String × String)

/-- Modelled after `HashMap::insert`: remove any existing binding of `k` and
bind `k` to `v`. -/
def insertP : Params → String → String → Params
  | [], k, v => [(k, v)]
  | (k', v') :: ps, k, v =>
    if k' = k then insertP ps k v else (k', v') :: insertP ps k v

/-- Modelled after `HashMap::get`: the value bound to `k`, if any. -/
def lookupP : Params → String → Option String
  | [], _ => none
  | (k', v') :: ps, k => if k' = k then some v' else lookupP ps k

theorem lookupP_insertP (ps : Params) (k v n : String) :
    lookupP (insertP ps k v) n = if n = k then some v else lookupP ps n := by
  induction ps with
  | nil =>
    by_cases h : n = k
    · simp [insertP, lookupP, h]
    · simp [insertP, lookupP, h, Ne.symm h]
  | cons hd tl ih =>
    obtain ⟨k', v'⟩ := hd
    by_cases hk : k' = k
    · rw [show insertP ((k', v') :: tl) k v = insertP tl k v by simp [insertP, hk], ih]
      by_cases hn : n = k
      · simp [hn]
      · have hk'n : ¬ k' = n := fun h => hn (by rw [← h, hk])
        simp [lookupP, hn, hk'n]
    · rw [show insertP ((k', v') :: tl) k v = (k', v') :: insertP tl k v by
        simp [insertP, hk]]
      by_cases hn : k' = n
      · have hnk : ¬ n = k := fun h => hk (hn.trans h)
        simp [lookupP, hn, hnk]
      · simp [lookupP, hn, ih]

/-! ## JSON values -/

/-- A JSON value, the shallow embedding of `serde_json::Value`. -/
inductive Json where
  | null : Json
  | bool (b : Bool) : Json
  | num (n : Int) : Json
  | str (s : String) : Json
  | arr (elems : List Json) : Json
  | obj (fields : List (String × Json)) : Json

/-- Field lookup in a JSON object (first binding wins, as in serde maps). -/
def Json.getField : Json → String → Option Json
  | .obj fields, k => go fields k
  | _, _ => none
where go : List (String × Json) → String → Option Json
  | [], _ => none
  | (k', v) :: fs, k => if k' = k then some v else go fs k

/-- Monadic map over a list with an `Option`-valued decoder, failing if any
element fails (the behaviour of serde when decoding a `Vec<T>`). -/
def mapOpt (f : α → Option β) : List α → Option (List β)
  | [] => some []
  | a :: as =>
    match f a, mapOpt f as with
    | some b, some bs => some (b :: bs)
    | _, _ => none

/-! ## Payload data types (from `aws_lambda_events` as used by `src/main.rs`) -/

/-- The `object` part of an S3 notification record: its key is optional,
matching `aws_lambda_events::s3::S3Object` as used by `entities_from`. -/
structure S3Object where
  key : Option String
deriving DecidableEq, Repr

/-- The `bucket` part of an S3 notification record. -/
structure S3Bucket where
  name : Option String
deriving DecidableEq, Repr

/-- An `S3Entity`: the `(bucket, object)` pair the pipeline routes and copies. -/
structure S3Entity where
  bucket : S3Bucket
  object : S3Object
deriving DecidableEq, Repr

/-- One record of a direct-shape notification batch (the fields of
`S3EventRecord` other than `s3` are never read by the source and are omitted). -/
structure S3EventRecord where
  s3 : S3Entity
deriving DecidableEq, Repr

/-- A direct-shape notification batch, `aws_lambda_events::s3::S3Event`. -/
structure S3Event where
  records : List S3EventRecord
deriving DecidableEq, Repr

/-- One queue envelope message; only its optional `body` string is read by
`s3_from_sqs`. -/
structure SqsMessage where
  body : Option String
deriving DecidableEq, Repr

/-- A queue-wrapped batch, `aws_lambda_events::sqs::SqsEvent`. -/
structure SqsEvent where
  records : List SqsMessage
deriving DecidableEq, Repr

/-- The test-marker struct of `src/main.rs`.  The Rust declaration carries
`#[serde(rename_all = "PascalCase")]`, so its single field `event` is
(de)serialized under the JSON name `Event`. -/
structure TestEvent where
  event : String
deriving DecidableEq, Repr

/-! ## Decoding JSON values into the payload types

Modelled from the spec: the serde decoders for the payload types live in the
external `aws_lambda_events` crate, absent from the sources; their shapes are
taken from §6 of the specification (`Records` capitalization from the JSON
fixture embedded in the tests of `src/main.rs`). -/

/-- Decode an optional string field value: a JSON string yields `some`, JSON
null yields `none`, anything else is a decode failure. -/
def decodeOptStr : Option Json → Option (Option String)
  | none => some none
  | some (.str s) => some (some s)
  | some .null => some none
  | some _ => none

/-- Modelled from the spec: decode the `object` component of a direct-shape
record (`\x7b "key": string \x7d`, key optional). -/
def decodeS3Object (j : Json) : Option S3Object :=
  match j with
  | .obj _ => (decodeOptStr (j.getField "key")).map S3Object.mk
  | _ => none

/-- Modelled from the spec: decode the `bucket` component of a direct-shape
record (`\x7b "name": string \x7d`, name optional). -/
def decodeS3Bucket (j : Json) : Option S3Bucket :=
  match j with
  | .obj _ => (decodeOptStr (j.getField "name")).map S3Bucket.mk
  | _ => none

/-- Modelled from the spec: decode the `s3` component of a direct-shape record:
a `bucket` and an `object`, both required. -/
def decodeS3Entity (j : Json) : Option S3Entity :=
  match j.getField "bucket", j.getField "object" with
  | some bj, some oj =>
    match decodeS3Bucket bj, decodeS3Object oj with
    | some b, some o => some ⟨b, o⟩
    | _, _ => none
  | _, _ => none

/-- Modelled from the spec: decode one direct-shape record, requiring its `s3`
field. -/
def decodeS3EventRecord (j : Json) : Option S3EventRecord :=
  match j.getField "s3" with
  | some sj => (decodeS3Entity sj).map S3EventRecord.mk
  | none => none

/-- Modelled from the spec: decode a direct-shape batch
(`\x7b "Records": [record, ...] \x7d`, `Records` required). -/
def decodeS3Event (j : Json) : Option S3Event :=
  match j.getField "Records" with
  | some (.arr elems) => (mapOpt decodeS3EventRecord elems).map S3Event.mk
  | _ => none

/-- Modelled from the spec: decode one queue envelope message.  The
queue-wrapped shape of §6 carries the embedded payload as a `body` string, so
`body` is required (a JSON null yields an absent body). -/
def decodeSqsMessage (j : Json) : Option SqsMessage :=
  match j.getField "body" with
  | some (.str s) => some ⟨some s⟩
  | some .null => some ⟨none⟩
  | _ => none

/-- Modelled from the spec: decode a queue-wrapped batch
(`\x7b "Records": [envelope, ...] \x7d`). -/
def decodeSqsEvent (j : Json) : Option SqsEvent :=
  match j.getField "Records" with
  | some (.arr elems) => (mapOpt decodeSqsMessage elems).map SqsEvent.mk
  | _ => none

/-- Decode the test marker struct of `src/main.rs`: serde requires the field
renamed to `Event` (PascalCase) to be present and be a string; unknown fields
are ignored and field names match exactly and case-sensitively. -/
def decodeTestEvent (j : Json) : Option TestEvent :=
  match j with
  | .obj _ =>
    match j.getField "Event" with
    | some (.str s) => some ⟨s⟩
    | _ => none
  | _ => none

/-! ## A JSON text parser

This models `serde_json::from_str` on the embedded envelope body strings
(`src/main.rs` lines 32 and 41).  It is a plain recursive-descent parser for
JSON objects, arrays, strings, integers and literals, rejecting trailing
garbage as serde does. -/

/-- If `pat` is an initial run of `s`, return the remainder of `s`. -/
def dropStart : List Char → List Char → Option (List Char)
  | [], s => some s
  | _ :: _, [] => none
  | p :: ps, c :: cs => if p = c then dropStart ps cs else none

/-- Skip JSON whitespace. -/
def skipWs : List Char → List Char
  | [] => []
  | c :: cs =>
    if c = ' ' ∨ c = '\n' ∨ c = '\t' ∨ c = '\r' then skipWs cs else c :: cs

/-- Decode one character of a JSON string escape sequence. -/
def escChar (c : Char) : Option Char :=
  if c = '"' then some '"'
  else if c = '\\' then some '\\'
  else if c = '/' then some '/'
  else if c = 'n' then some '\n'
  else if c = 't' then some '\t'
  else if c = 'r' then some '\r'
  else none

/-- Parse the body of a JSON string (the opening quote already consumed),
returning the decoded characters and the input after the closing quote. -/
def parseStrBody : List Char → Option (List Char × List Char)
  | [] => none
  | c :: cs =>
    if c = '"' then some ([], cs)
    else if c = '\\' then
      match cs with
      | [] => none
      | e :: cs2 =>
        match escChar e, parseStrBody cs2 with
        | some ec, some (r, rest) => some (ec :: r, rest)
        | _, _ => none
    else
      match parseStrBody cs with
      | some (r, rest) => some (c :: r, rest)
      | none => none

/-- Take a maximal run of decimal digits. -/
def takeDigits : List Char → List Char × List Char
  | [] => ([], [])
  | c :: cs =>
    if c.isDigit then
      match takeDigits cs with
      | (ds, rest) => (c :: ds, rest)
    else ([], c :: cs)

/-- Value of a run of decimal digits. -/
def digitsToNat (ds : List Char) : Nat :=
  ds.foldl (fun acc c => acc * 10 + (c.toNat - 48)) 0

/-- Fuelled JSON value parser.  Returns the parsed value and the unconsumed
input.  The continuation of a partially parsed object or array is parsed by
re-entering the parser on the remainder prefixed with the opening bracket, so
the recursion is plainly structural on the fuel. -/
def parseJsonF : Nat → List Char → Option (Json × List Char)
  | 0, _ => none
  | f + 1, cs =>
    match skipWs cs with
    | [] => none
    | c :: cs' =>
      if c = '"' then
        match parseStrBody cs' with
        | some (s, rest) => some (.str (String.mk s), rest)
        | none => none
      else if c = '\x7b' then
        match skipWs cs' with
        | '\x7d' :: rest => some (.obj [], rest)
        | '"' :: cs2 =>
          match parseStrBody cs2 with
          | some (kcs, rest2) =>
            match skipWs rest2 with
            | ':' :: rest3 =>
              match parseJsonF f rest3 with
              | some (v, rest4) =>
                match skipWs rest4 with
                | '\x7d' :: rest5 => some (.obj [(String.mk kcs, v)], rest5)
                | ',' :: rest5 =>
                  match skipWs rest5 with
                  | '"' :: _ =>
                    match parseJsonF f ('\x7b' :: skipWs rest5) with
                    | some (.obj flds, rest6) =>
                      some (.obj ((String.mk kcs, v) :: flds), rest6)
                    | _ => none
                  | _ => none
                | _ => none
              | none => none
            | _ => none
          | none => none
        | _ => none
      else if c = '[' then
        match skipWs cs' with
        | ']' :: rest => some (.arr [], rest)
        | cs2 =>
          match parseJsonF f cs2 with
          | some (v, rest2) =>
            match skipWs rest2 with
            | ']' :: rest3 => some (.arr [v], rest3)
            | ',' :: rest3 =>
              match skipWs rest3 with
              | ']' :: _ => none
              | cs3 =>
                match parseJsonF f ('[' :: cs3) with
                | some (.arr vs, rest4) => some (.arr (v :: vs), rest4)
                | _ => none
            | _ => none
          | none => none
      else if c = 't' then
        match dropStart "rue".data cs' with
        | some rest => some (.bool true, rest)
        | none => none
      else if c = 'f' then
        match dropStart "alse".data cs' with
        | some rest => some (.bool false, rest)
        | none => none
      else if c = 'n' then
        match dropStart "ull".data cs' with
        | some rest => some (.null, rest)
        | none => none
      else if c = '-' then
        match takeDigits cs' with
        | ([], _) => none
        | (ds, rest) => some (.num (-(digitsToNat ds : Int)), rest)
      else if c.isDigit then
        match takeDigits (c :: cs') with
        | (ds, rest) => some (.num (digitsToNat ds : Int), rest)
      else none

/-- Parse a complete JSON document, rejecting trailing garbage
(`serde_json::from_str`). -/
def parseJsonStr (s : String) : Option Json :=
  match parseJsonF (s.length + 2) s.data with
  | some (j, rest) => if skipWs rest = [] then some j else none
  | none => none

/-- `serde_json::from_str::<S3Event>` applied to an envelope body string. -/
def parseS3EventStr (s : String) : Option S3Event :=
  (parseJsonStr s).bind decodeS3Event

/-- `serde_json::from_str::<TestEvent>` applied to an envelope body string. -/
def parseTestEventStr (s : String) : Option TestEvent :=
  (parseJsonStr s).bind decodeTestEvent

/-! ## The normalizer (`s3_from_sqs` and the fallback in `function_handler`) -/

/-- The record-collection loop of `s3_from_sqs` in `src/main.rs`: records of
each body that parses as a direct-shape batch are concatenated in order; a
body that parses as neither a direct-shape batch nor a test marker with the
exact event value `s3:TestEvent` aborts the whole batch (`none`); an envelope
without a body contributes nothing. -/
def s3FromSqsRecords : List SqsMessage → Option (List S3EventRecord)
  | [] => some []
  | m :: ms =>
    match m.body with
    | none => s3FromSqsRecords ms
    | some body =>
      match parseS3EventStr body with
      | some ev =>
        match s3FromSqsRecords ms with
        | some rest => some (ev.records ++ rest)
        | none => none
      | none =>
        match parseTestEventStr body with
        | none => none
        | some te =>
          if te.event = "s3:TestEvent" then s3FromSqsRecords ms else none

/-- `s3_from_sqs` of `src/main.rs`; `none` is the `Err` case. -/
def s3_from_sqs (event : SqsEvent) : Option S3Event :=
  (s3FromSqsRecords event.records).map S3Event.mk

/-- The payload normalization of `function_handler` (lines 78 to 81 of
`src/main.rs`): first attempt the queue-wrapped shape, on success normalize
through `s3_from_sqs`; otherwise attempt the direct shape; `none` is the
fatal failure propagated to the runtime. -/
def normalizePayload (payload : Json) : Option S3Event :=
  match decodeSqsEvent payload with
  | some sqs => s3_from_sqs sqs
  | none => decodeS3Event payload

/-- `entities_from` of `src/main.rs`: keep only records whose object key is
present (the Rust function returns `Result` but never produces the error
case). -/
def entities_from (event : S3Event) : List S3Entity :=
  (event.records.filter (fun r => r.s3.object.key.isSome)).map (fun r => r.s3)

/-! ## Pattern router

Modelled from the spec: the router lives in the external `routefinder` crate.
Per §4.3 and §6 of the specification a pattern is a `/`-separated sequence of
segments, a segment beginning with `:` is a named capture binding exactly one
key segment, all other segments must match literally, and segment count must
align exactly.  Leading and trailing separators are trimmed, as the embedded
test fixtures of `src/main.rs` exercise (pattern `/:ignore/...` against keys
without a leading slash). -/

/-- One path segment of a routing pattern. -/
inductive Segment where
  | literal (s : String)
  | capture (name : String)
deriving DecidableEq, Repr

/-- Drop leading and trailing `/` characters. -/
def trimSlashes (cs : List Char) : List Char :=
  ((cs.dropWhile (· = '/')).reverse.dropWhile (· = '/')).reverse

/-- Split on a separator character, keeping empty parts. -/
def splitOnCharAux (sep : Char) : List Char → List Char → List (List Char)
  | [], acc => [acc.reverse]
  | c :: cs, acc =>
    if c = sep then acc.reverse :: splitOnCharAux sep cs []
    else splitOnCharAux sep cs (c :: acc)

/-- Split on a separator character. -/
def splitOnCharL (sep : Char) (cs : List Char) : List (List Char) :=
  splitOnCharAux sep cs []

/-- The `/`-separated segments of a key or pattern, after trimming. -/
def segmentsOf (s : String) : List String :=
  match trimSlashes s.data with
  | [] => []
  | cs => (splitOnCharL '/' cs).map String.mk

/-- Read one pattern segment: `:name` is a capture, all else literal. -/
def parseSegment (seg : String) : Segment :=
  match seg.data with
  | ':' :: rest => .capture (String.mk rest)
  | _ => .literal seg

/-- Compile a routing pattern string into its segments. -/
def parsePattern (s : String) : List Segment :=
  (segmentsOf s).map parseSegment

/-- Structural alignment of a pattern against key segments, producing the
captures in pattern order. -/
def matchSegs : List Segment → List String → Option (List (String × String))
  | [], [] => some []
  | .literal l :: ps, s :: ss => if l = s then matchSegs ps ss else none
  | .capture n :: ps, s :: ss =>
    match matchSegs ps ss with
    | some caps => some ((n, s) :: caps)
    | none => none
  | _, _ => none

/-- A router: the registered patterns in registration order. -/
abbrev Router : Type := List (List Segment)

/-- All matches of a key, in registration order (`Router::matches`). -/
def routerMatchList (router : Router) (key : String) :
    List (List (String × String)) :=
  router.filterMap (fun p => matchSegs p (segmentsOf key))

/-- `captured_parameters` of `src/main.rs`: `None` when no pattern matches,
otherwise the captures of the first match inserted into a fresh map. -/
def captured_parameters (router : Router) (source_key : String) :
    Option Params :=
  match routerMatchList router source_key with
  | [] => none
  | caps :: _ => some (caps.foldl (fun data c => insertP data c.1 c.2) [])

/-! ## Exclusion filter -/

/-- Modelled from the spec: a compiled exclusion regular expression is only
ever used through `Regex::is_match`, so it is embedded as its matching
predicate. -/
abbrev RegexM : Type := String → Bool

/-- `should_exclude` of `src/main.rs`: true when a pattern is configured and
matches the key. -/
def should_exclude (pattern : Option RegexM) (key : String) : Bool :=
  match pattern with
  | some re => re key
  | none => false

/-! ## Parameter enricher -/

/-- The UTC date components read from `chrono::Utc::now()`, passed explicitly
since the Rust function reads the wall clock. -/
structure Date where
  year : Nat
  month : Nat
  day : Nat
deriving DecidableEq, Repr

/-- Zero-pad to two digits (the `%m`/`%d` of `chrono` format strings). -/
def pad2 (n : Nat) : String :=
  if n < 10 then "0" ++ Nat.repr n else Nat.repr n

/-- Zero-pad to four digits (the `%Y` of `chrono` format strings). -/
def pad4 (n : Nat) : String :=
  if n < 10 then "000" ++ Nat.repr n
  else if n < 100 then "00" ++ Nat.repr n
  else if n < 1000 then "0" ++ Nat.repr n
  else Nat.repr n

/-- The `%Y-%m-%d` rendering of a date. -/
def dsFormat (d : Date) : String :=
  pad4 d.year ++ "-" ++ pad2 d.month ++ "-" ++ pad2 d.day

/-- `add_builtin_parameters` of `src/main.rs`: insert the five built-ins,
overwriting same-named captures.  `now` stands for `chrono::Utc::now()` and
`regionEnv` for `std::env::var("AWS_REGION").ok()`. -/
def add_builtin_parameters (now : Date) (regionEnv : Option String)
    (data : Params) : Params :=
  insertP
    (insertP
      (insertP
        (insertP
          (insertP data "year" (Nat.repr now.year))
          "month" (Nat.repr now.month))
        "day" (Nat.repr now.day))
      "ds" (dsFormat now))
    "region" (regionEnv.getD "unknown")

/-! ## Template renderer

Modelled from the spec: the renderer is the external `liquid` crate.  Per
§4.5 and §6 of the specification the template syntax is `\x7b\x7bident\x7d\x7d`
for substitution and `\x7b\x7bident | filterName:(quoted argument)\x7d\x7d`
for a filtered substitution; a variable absent from the parameters renders as
the empty string; the `remove` filter deletes every occurrence of its fixed
argument substring.  The round-trip behaviour is pinned by the `test_rendering`
test embedded in `src/main.rs`. -/

/-- A named template filter (only `remove` is used by this repository). -/
inductive Filt where
  | remove (arg : String)
deriving DecidableEq, Repr

/-- A compiled template element: literal text, or a variable reference with a
chain of filters. -/
inductive TElem where
  | lit (s : String)
  | var (name : String) (filters : List Filt)
deriving DecidableEq, Repr

/-- A compiled template. -/
abbrev Template : Type := List TElem

/-- Fuelled removal of every occurrence of `pat` from a character list. -/
def removeAllF : Nat → List Char → List Char → List Char
  | 0, s, _ => s
  | _ + 1, [], _ => []
  | f + 1, c :: cs, pat =>
    match dropStart pat (c :: cs) with
    | some rest => removeAllF f rest pat
    | none => c :: removeAllF f cs pat

/-- Delete every occurrence of the fixed substring `pat` (the liquid `remove`
filter). -/
def removeAll (s pat : String) : String :=
  if pat.data.isEmpty then s
  else String.mk (removeAllF (s.data.length + 1) s.data pat.data)

/-- The single-quote character, written by code point. -/
def squote : Char := Char.ofNat 39

/-- Drop leading spaces. -/
def trimL (cs : List Char) : List Char :=
  cs.dropWhile (· = ' ')

/-- Drop leading and trailing spaces. -/
def trimBoth (cs : List Char) : List Char :=
  ((cs.dropWhile (· = ' ')).reverse.dropWhile (· = ' ')).reverse

/-- Take characters up to a closing single quote. -/
def takeUntilQ : List Char → Option (List Char × List Char)
  | [] => none
  | c :: cs =>
    if c = squote then some ([], cs)
    else
      match takeUntilQ cs with
      | some (r, rest) => some (c :: r, rest)
      | none => none

/-- Read one filter of a variable expression: `remove:(quoted argument)`. -/
def parseFilter (cs : List Char) : Option Filt :=
  match dropStart "remove:".data (trimBoth cs) with
  | none => none
  | some rest =>
    match trimL rest with
    | [] => none
    | q :: rest2 =>
      if q = squote then
        match takeUntilQ rest2 with
        | some (arg, rest3) =>
          if trimBoth rest3 = [] then some (.remove (String.mk arg)) else none
        | none => none
      else none

/-- Read the inside of a `\x7b\x7b ... \x7d\x7d` variable expression: a
variable name followed by `|`-separated filters. -/
def parseVarContent (cs : List Char) : Option TElem :=
  match splitOnCharL '|' cs with
  | [] => none
  | namePart :: filtParts =>
    match trimBoth namePart with
    | [] => none
    | nm =>
      match mapOpt parseFilter filtParts with
      | some fs => some (.var (String.mk nm) fs)
      | none => none

/-- Take the characters of a variable expression up to the closing
`\x7d\x7d`. -/
def takeVar : List Char → Option (List Char × List Char)
  | [] => none
  | '\x7d' :: '\x7d' :: rest => some ([], rest)
  | c :: cs =>
    match takeVar cs with
    | some (r, rest) => some (c :: r, rest)
    | none => none

/-- Fuelled template compiler: literal text interleaved with variable
expressions. -/
def parseTmplF : Nat → List Char → Option (List TElem)
  | 0, _ => none
  | _ + 1, [] => some []
  | f + 1, '\x7b' :: '\x7b' :: cs =>
    match takeVar cs with
    | some (content, rest) =>
      match parseVarContent content, parseTmplF f rest with
      | some e, some es => some (e :: es)
      | _, _ => none
    | none => none
  | f + 1, c :: cs =>
    match parseTmplF f cs with
    | some (TElem.lit s :: es) => some (.lit (String.mk (c :: s.data)) :: es)
    | some es => some (.lit (String.mk [c]) :: es)
    | none => none

/-- Compile a template string (`liquid::Parser::parse`). -/
def parseTemplate (s : String) : Option Template :=
  parseTmplF (s.data.length + 1) s.data

/-- Apply one filter to a value. -/
def applyFilt (f : Filt) (s : String) : String :=
  match f with
  | .remove arg => removeAll s arg

/-- Apply a filter chain left to right. -/
def applyFilters (fs : List Filt) (s : String) : String :=
  fs.foldl (fun acc f => applyFilt f acc) s

/-- Render one template element; a variable absent from the parameters renders
as the empty string. -/
def renderElem (ps : Params) : TElem → String
  | .lit s => s
  | .var n fs => applyFilters fs ((lookupP ps n).getD "")

/-- Concatenate rendered pieces. -/
def concatAll : List String → String
  | [] => ""
  | s :: ss => s ++ concatAll ss

/-- `Template::render`: the `Result`-typed rendering of a compiled template;
with the features used by this repository no error case is reachable, and an
undefined variable is not an error. -/
def renderT (t : Template) (ps : Params) : Except String String :=
  .ok (concatAll (t.map (renderElem ps)))

/-! ## The per-entity pipeline step of `function_handler` -/

/-- What `function_handler` does with one filtered entity: the observable
outcome of the loop body at lines 83 to 113 of `src/main.rs`. -/
inductive Disposition where
  | missingKey
  | excluded
  | noMatch
  | renderFailed
  | copied (sourceKey destKey : String) (bucket : Option String)
deriving DecidableEq, Repr

/-- The loop body of `function_handler`: skip when the key is absent, skip
silently when the exclusion pattern matches, skip with a notice when no
routing pattern matches, otherwise enrich the captures, render the
destination key and issue the copy request. -/
def process_entity (excl : Option RegexM) (router : Router) (tmpl : Template)
    (now : Date) (regionEnv : Option String) (entity : S3Entity) :
    Disposition :=
  match entity.object.key with
  | none => .missingKey
  | some sourceKey =>
    if should_exclude excl sourceKey then .excluded
    else
      match captured_parameters router sourceKey with
      | none => .noMatch
      | some params =>
        match renderT tmpl (add_builtin_parameters now regionEnv params) with
        | .ok outputKey => .copied sourceKey outputKey entity.bucket.name
        | .error _ => .renderFailed

/-- One whole invocation: normalize the payload, filter the entities, process
each in order.  `none` is the fatal failure of the invocation, under which no
entity is processed. -/
def processInvocation (excl : Option RegexM) (router : Router)
    (tmpl : Template) (now : Date) (regionEnv : Option String)
    (payload : Json) : Option (List Disposition) :=
  (normalizePayload payload).map fun ev =>
    (entities_from ev).map (process_entity excl router tmpl now regionEnv)

/-! ## Concrete payload builders used by the theorems -/

/-- The records denoted by a list of `(bucket, key)` pairs. -/
def mkDirectRecords (prs : List (String × String)) : List S3EventRecord :=
  prs.map (fun p => ⟨⟨⟨some p.1⟩, ⟨some p.2⟩⟩⟩)

/-- A direct-shape payload carrying the given `(bucket, key)` pairs inline. -/
def mkDirectPayload (prs : List (String × String)) : Json :=
  .obj [("Records", .arr (prs.map (fun p =>
    .obj [("s3", .obj [("bucket", .obj [("name", .str p.1)]),
                       ("object", .obj [("key", .str p.2)])])])))]

/-- A queue-wrapped payload whose envelopes carry the given body strings. -/
def mkSqsPayload (bodies : List String) : Json :=
  .obj [("Records", .arr (bodies.map (fun b => .obj [("body", .str b)])))]

/-! ## Shared lemmas -/

/-- Direct-shape payload elements decode to the corresponding records, in
order. -/
theorem mapOpt_decodeS3EventRecord (prs : List (String × String)) :
    mapOpt decodeS3EventRecord (prs.map (fun p =>
      Json.obj [("s3", .obj [("bucket", .obj [("name", .str p.1)]),
                             ("object", .obj [("key", .str p.2)])])])) =
    some (mkDirectRecords prs) := by
  induction prs with
  | nil => rfl
  | cons p ps ih =>
    simp [mapOpt, ih, mkDirectRecords, decodeS3EventRecord, decodeS3Entity,
      decodeS3Bucket, decodeS3Object, decodeOptStr, Json.getField,
      Json.getField.go]

/-- A direct-shape payload decodes as a direct-shape batch, record for
record. -/
theorem decodeS3Event_mkDirectPayload (prs : List (String × String)) :
    decodeS3Event (mkDirectPayload prs) = some ⟨mkDirectRecords prs⟩ := by
  simp [decodeS3Event, mkDirectPayload, Json.getField, Json.getField.go,
    mapOpt_decodeS3EventRecord prs]

/-- Queue-wrapped payload envelopes decode to their body strings, in order. -/
theorem decodeSqsEvent_mkSqsPayload (bodies : List String) :
    decodeSqsEvent (mkSqsPayload bodies) =
      some ⟨bodies.map (fun b => ⟨some b⟩)⟩ := by
  have h : mapOpt decodeSqsMessage (bodies.map (fun b =>
      Json.obj [("body", .str b)])) =
      some (bodies.map (fun b => SqsMessage.mk (some b))) := by
    induction bodies with
    | nil => rfl
    | cons b bs ih =>
      simp [mapOpt, ih, decodeSqsMessage, Json.getField, Json.getField.go]
  simp [decodeSqsEvent, mkSqsPayload, Json.getField, Json.getField.go, h]

/-- A body that parses as neither a direct-shape batch nor a marker with the
exact `s3:TestEvent` value poisons the whole record collection, wherever it
sits in the batch. -/
theorem s3FromSqsRecords_malformed (pre post : List SqsMessage) (b : String)
    (h1 : parseS3EventStr b = none)
    (h2 : ∀ te, parseTestEventStr b = some te → te.event ≠ "s3:TestEvent") :
    s3FromSqsRecords (pre ++ SqsMessage.mk (some b) :: post) = none := by
  induction pre with
  | nil =>
    rw [List.nil_append]
    cases hte : parseTestEventStr b with
    | none => simp [s3FromSqsRecords, h1, hte]
    | some te => simp [s3FromSqsRecords, h1, hte, h2 te hte]
  | cons m ms ih =>
    rw [List.cons_append]
    cases hm : m.body with
    | none => simpa [s3FromSqsRecords, hm] using ih
    | some b' =>
      cases hs : parseS3EventStr b' with
      | some ev => simp [s3FromSqsRecords, hm, hs, ih]
      | none =>
        cases hte : parseTestEventStr b' with
        | none => simp [s3FromSqsRecords, hm, hs, hte]
        | some te =>
          by_cases hmark : te.event = "s3:TestEvent" <;>
            simp [s3FromSqsRecords, hm, hs, hte, hmark, ih]

/-! ## C1 -/

/-- C1: a payload in the direct shape that does not decode as queue-wrapped
normalizes to exactly its inline records in order, and a payload decoding as
neither shape makes normalization fail fatally. -/
theorem C1_direct_shape_fallback :
    (∀ prs : List (String × String),
      decodeSqsEvent (mkDirectPayload prs) = none →
      normalizePayload (mkDirectPayload prs) = some ⟨mkDirectRecords prs⟩) ∧
    (∀ j : Json, decodeSqsEvent j = none → decodeS3Event j = none →
      normalizePayload j = none) := by
  constructor
  · intro prs h
    simp [normalizePayload, h, decodeS3Event_mkDirectPayload]
  · intro j h1 h2
    simp [normalizePayload, h1, h2]

/-- Witness for C1: a one-record direct payload is not queue-wrapped and
normalizes to its single inline record; a payload of neither shape fails. -/
theorem C1_direct_shape_fallback_witness :
    normalizePayload (mkDirectPayload [("bucket-a", "key-a")]) =
      some ⟨mkDirectRecords [("bucket-a", "key-a")]⟩ ∧
    normalizePayload (Json.str "not a batch") = none :=
  ⟨C1_direct_shape_fallback.1 [("bucket-a", "key-a")] (by decide),
   C1_direct_shape_fallback.2 (Json.str "not a batch") (by decide) (by decide)⟩

/-! ## C2 -/

/-- C2 as stated is false: the `TestEvent` struct of `src/main.rs` carries
`serde(rename_all = "PascalCase")`, so the discriminator field is serialized
as `Event`; a queue-wrapped batch whose single envelope body is the lowercase
marker `\x7b"event":"s3:TestEvent"\x7d` does not normalize to zero entities
without error — it is a fatal parse failure. -/
theorem C2_lowercase_marker_counterexample :
    normalizePayload (mkSqsPayload ["\x7b\"event\":\"s3:TestEvent\"\x7d"]) =
      none := by
  rfl

/-- C2, amended: a queue-wrapped batch whose single envelope body is the
test-marker JSON `\x7b"Event":"s3:TestEvent"\x7d` normalizes to zero entities
and no error; the discriminator field name (after the PascalCase rename) and
value are matched exactly and case-sensitively, so changing the case of the
value or of the field name makes the batch fail fatally. -/
theorem C2_test_marker_normalizes_empty :
    normalizePayload (mkSqsPayload ["\x7b\"Event\":\"s3:TestEvent\"\x7d"]) =
      some ⟨[]⟩ ∧
    normalizePayload (mkSqsPayload ["\x7b\"Event\":\"s3:testevent\"\x7d"]) =
      none ∧
    normalizePayload (mkSqsPayload ["\x7b\"EVENT\":\"s3:TestEvent\"\x7d"]) =
      none := by
  exact ⟨rfl, rfl, rfl⟩

/-! ## C3 -/

/-- C3: an envelope body that parses as neither a direct-shape payload nor a
recognized test marker makes normalization return the parse failure for the
whole invocation, wherever the envelope sits in the batch, and the invocation
processes zero entities: there is no partial success for the other
messages. -/
theorem C3_malformed_body_aborts_batch :
    (∀ (pre post : List SqsMessage) (b : String),
      parseS3EventStr b = none →
      (∀ te, parseTestEventStr b = some te → te.event ≠ "s3:TestEvent") →
      s3_from_sqs ⟨pre ++ SqsMessage.mk (some b) :: post⟩ = none) ∧
    (∀ (excl : Option RegexM) (router : Router) (tmpl : Template) (now : Date)
       (regionEnv : Option String) (pres posts : List String) (b : String),
      parseS3EventStr b = none →
      (∀ te, parseTestEventStr b = some te → te.event ≠ "s3:TestEvent") →
      processInvocation excl router tmpl now regionEnv
        (mkSqsPayload (pres ++ b :: posts)) = none) := by
  constructor
  · intro pre post b h1 h2
    simp [s3_from_sqs, s3FromSqsRecords_malformed pre post b h1 h2]
  · intro excl router tmpl now regionEnv pres posts b h1 h2
    have hrec : (pres ++ b :: posts).map
        (fun b => SqsMessage.mk (some b)) =
        pres.map (fun b => SqsMessage.mk (some b)) ++
          SqsMessage.mk (some b) :: posts.map (fun b => SqsMessage.mk (some b)) := by
      simp
    simp [processInvocation, normalizePayload, decodeSqsEvent_mkSqsPayload,
      s3_from_sqs, hrec, s3FromSqsRecords_malformed _ _ b h1 h2]

/-- Witness for C3: a batch whose single envelope body is not JSON at all is
a fatal normalization failure. -/
theorem C3_malformed_body_aborts_batch_witness :
    s3_from_sqs ⟨[SqsMessage.mk (some "notjson")]⟩ = none :=
  C3_malformed_body_aborts_batch.1 [] [] "notjson" (by decide)
    (by
      intro te h
      rw [show parseTestEventStr "notjson" = none from by decide] at h
      exact Option.noConfusion h)

/-! ## C4 -/

/-- The filter-then-project of `entities_from` equals project-then-filter. -/
theorem entities_from_eq_filter (l : List S3EventRecord) :
    (l.filter (fun r => r.s3.object.key.isSome)).map (fun r => r.s3) =
    (l.map (fun r => r.s3)).filter (fun e => e.object.key.isSome) := by
  induction l with
  | nil => rfl
  | cons r rs ih =>
    cases h : r.s3.object.key.isSome <;>
      simp [List.filter_cons, h, ih]

/-- C4: every entity surviving the presence filter has a present object key;
entities lacking an object key are exactly the ones dropped, and the
survivors keep their original relative order (they form a sublist of the
projected input sequence). -/
theorem C4_presence_filter (ev : S3Event) :
    ((entities_from ev).all fun e => e.object.key.isSome) = true ∧
    entities_from ev =
      (ev.records.map (fun r => r.s3)).filter (fun e => e.object.key.isSome) ∧
    (entities_from ev).Sublist (ev.records.map (fun r => r.s3)) := by
  have heq : entities_from ev =
      (ev.records.map (fun r => r.s3)).filter
        (fun e => e.object.key.isSome) := by
    simpa [entities_from] using entities_from_eq_filter ev.records
  refine ⟨?_, heq, ?_⟩
  · rw [heq, List.all_eq_true]
    intro e he
    exact (List.mem_filter.mp he).2
  · rw [heq]
    exact List.filter_sublist _

/-! ## C5 -/

/-- C5: a key matched by the configured exclusion regular expression makes
the entity be skipped silently — the outcome is `excluded`, not a copy, a
render or an error, whatever the router and template — and when no exclusion
pattern is configured nothing is ever excluded. -/
theorem C5_exclusion_skips :
    (∀ (re : RegexM) (router : Router) (tmpl : Template) (now : Date)
       (regionEnv bucket : Option String) (k : String),
      re k = true →
      process_entity (some re) router tmpl now regionEnv ⟨⟨bucket⟩, ⟨some k⟩⟩ =
        .excluded) ∧
    (∀ k, should_exclude none k = false) ∧
    (∀ (router : Router) (tmpl : Template) (now : Date)
       (regionEnv : Option String) (e : S3Entity),
      process_entity none router tmpl now regionEnv e ≠ .excluded) := by
  refine ⟨?_, fun _ => rfl, ?_⟩
  · intro re router tmpl now regionEnv bucket k h
    simp [process_entity, should_exclude, h]
  · intro router tmpl now regionEnv e
    obtain ⟨⟨bname⟩, ⟨key⟩⟩ := e
    cases key with
    | none => simp [process_entity]
    | some k =>
      cases hcp : captured_parameters router k <;>
        simp [process_entity, should_exclude, hcp, renderT]

/-- Witness for C5: a concrete matching exclusion pattern yields the silent
skip even though the router has no pattern the key could match. -/
theorem C5_exclusion_skips_witness :
    process_entity (some fun k => k == "logs/skip.parquet")
      [parsePattern "/:a/:b"] [] ⟨2025, 10, 12⟩ none
      ⟨⟨some "bucket-a"⟩, ⟨some "logs/skip.parquet"⟩⟩ = .excluded :=
  C5_exclusion_skips.1 (fun k => k == "logs/skip.parquet")
    [parsePattern "/:a/:b"] [] ⟨2025, 10, 12⟩ none (some "bucket-a")
    "logs/skip.parquet" (by decide)

/-! ## C6 -/

/-- C6: the pattern `/:ignore/livemode/:table/:filename` does not match
`2025041518/testmode/sometable/part-0.parquet` (the literal segment
`livemode` mismatches `testmode`) and does match
`2025041518/livemode/sometable/part-0.parquet`, binding `table` to
`sometable` and each named capture to exactly its one path segment. -/
theorem C6_livemode_pattern_example :
    captured_parameters [parsePattern "/:ignore/livemode/:table/:filename"]
      "2025041518/testmode/sometable/part-0.parquet" = none ∧
    captured_parameters [parsePattern "/:ignore/livemode/:table/:filename"]
      "2025041518/livemode/sometable/part-0.parquet" =
      some [("ignore", "2025041518"), ("table", "sometable"),
            ("filename", "part-0.parquet")] := by
  exact ⟨rfl, rfl⟩

/-! ## C7 -/

/-- C7: enrichment overwrites any existing entry named `year`, `month`,
`day`, `ds` or `region` with the built-in value, whatever the incoming
captures, and enriching the empty map yields a map whose keys are exactly
`year`, `month`, `day`, `ds`, `region`. -/
theorem C7_builtins_overwrite (now : Date) (regionEnv : Option String)
    (m : Params) :
    lookupP (add_builtin_parameters now regionEnv m) "year" =
      some (Nat.repr now.year) ∧
    lookupP (add_builtin_parameters now regionEnv m) "month" =
      some (Nat.repr now.month) ∧
    lookupP (add_builtin_parameters now regionEnv m) "day" =
      some (Nat.repr now.day) ∧
    lookupP (add_builtin_parameters now regionEnv m) "ds" =
      some (dsFormat now) ∧
    lookupP (add_builtin_parameters now regionEnv m) "region" =
      some (regionEnv.getD "unknown") ∧
    (add_builtin_parameters now regionEnv []).map Prod.fst =
      ["year", "month", "day", "ds", "region"] := by
  refine ⟨?_, ?_, ?_, ?_, ?_, ?_⟩ <;>
    simp [add_builtin_parameters, lookupP_insertP, insertP]

/-! ## C8 -/

/-- Removing a substring from the empty string yields the empty string. -/
theorem removeAll_of_empty (pat : String) : removeAll "" pat = "" := by
  by_cases h : pat.data.isEmpty
  · simp [removeAll, h]
  · simp only [removeAll, if_neg h]
    rfl

/-- A filter chain applied to the empty string yields the empty string. -/
theorem applyFilters_of_empty (fs : List Filt) : applyFilters fs "" = "" := by
  induction fs with
  | nil => rfl
  | cons f fs ih =>
    cases f with
    | remove a =>
      show applyFilters fs (applyFilt (.remove a) "") = ""
      rw [show applyFilt (.remove a) "" = "" from removeAll_of_empty a]
      exact ih

/-- C8: rendering a template that references a variable absent from the
parameter set succeeds and substitutes the empty string for that variable
(also through any filter chain); rendering never produces the error case. -/
theorem C8_missing_variable_renders_empty (ps : Params) (n : String)
    (fs : List Filt) (t : Template) (h : lookupP ps n = none) :
    renderT [TElem.var n fs] ps = .ok "" ∧ (renderT t ps).isOk = true := by
  constructor
  · simp [renderT, renderElem, concatAll, h, applyFilters_of_empty]
  · rfl

/-- Witness for C8: a parameter set lacking the referenced variable renders
it, filters included, as the empty string. -/
theorem C8_missing_variable_renders_empty_witness :
    renderT [TElem.var "absent" [Filt.remove "public."]] [("present", "v")] =
      Except.ok "" ∧
    (renderT [TElem.lit "databases/"] [("present", "v")]).isOk = true :=
  C8_missing_variable_renders_empty [("present", "v")] "absent"
    [Filt.remove "public."] [TElem.lit "databases/"] (by decide)

/-! ## C9 -/

/-- The single-quote character as a one-character string. -/
def singleQuote : String := String.mk [Char.ofNat 39]

/-- The template text of the `test_rendering` test of `src/main.rs`:
`databases/(database)/(table | remove single-quoted public.)/ds=(ds)/(filename)`
with the liquid variable delimiters. -/
def templateC9 : String :=
  "databases/\x7b\x7bdatabase\x7d\x7d/\x7b\x7btable | remove:" ++ singleQuote ++
    "public." ++ singleQuote ++ "\x7d\x7d/ds=\x7b\x7bds\x7d\x7d/\x7b\x7bfilename\x7d\x7d"

/-- C9: the round-trip example: compiling that template and rendering it with
`database=oltp, table=public.a_table, ds=2023-09-05, filename=some.parquet`
produces exactly `databases/oltp/a_table/ds=2023-09-05/some.parquet`, the
`remove` filter deleting the fixed substring `public.` before
substitution. -/
theorem C9_template_roundtrip :
    (parseTemplate templateC9).map (fun t => renderT t
      [("database", "oltp"), ("table", "public.a_table"),
       ("ds", "2023-09-05"), ("filename", "some.parquet")]) =
    some (Except.ok "databases/oltp/a_table/ds=2023-09-05/some.parquet") := by
  rfl

/-! ## C10 -/

/-- C10: enrichment is a frame over the five built-in names: at every other
name the enriched map agrees with the incoming map. -/
theorem C10_enrichment_frame (now : Date) (regionEnv : Option String)
    (m : Params) (n : String)
    (h : n ∉ (["year", "month", "day", "ds", "region"] : List String)) :
    lookupP (add_builtin_parameters now regionEnv m) n = lookupP m n := by
  simp only [List.mem_cons, List.not_mem_nil, or_false, not_or] at h
  obtain ⟨h1, h2, h3, h4, h5⟩ := h
  simp [add_builtin_parameters, lookupP_insertP, h1, h2, h3, h4, h5]

/-- Witness for C10: enriching a map carrying a `table` capture leaves the
`table` entry unchanged. -/
theorem C10_enrichment_frame_witness :
    lookupP (add_builtin_parameters ⟨2023, 9, 5⟩ (some "us-east-1")
      [("table", "t0"), ("year", "overwritten")]) "table" =
    lookupP [("table", "t0"), ("year", "overwritten")] "table" :=
  C10_enrichment_frame ⟨2023, 9, 5⟩ (some "us-east-1")
    [("table", "t0"), ("year", "overwritten")] "table" (by decide)
